import Mathlib

/-!
Verification development for the ValueGuardToken backend core
(`backend/apps/protocol`): the block-event poller, the intent
reconciliation handlers, the transaction submitter, the NAV calculator
and the admin weight-update endpoint.

The Python sources are shallowly embedded as follows.

* Django tables become Lean lists of records; `update_or_create`
  (keyed by primary key) becomes `upsert`, and `create` on a table with
  an explicit primary key becomes `acreate`, which fails (IntegrityError)
  when the key is present.
* `Decimal` arithmetic (context precision 50) is embedded as exact
  arithmetic over `ℚ`; this is exact for every quantity whose decimal
  representation stays below 50 significant digits.  Python `int()`
  applied to a `Decimal` truncates toward zero and is embedded as
  `pyInt`.
* Chain RPC calls and the Celery task queue are environments passed as
  explicit parameters: every call that can raise is an `Option`, where
  `none` stands for a raised exception at that call site.
-/

namespace ValueGuard

/-- Scale factor for 18-decimal fixed point amounts
(`DECIMAL_SCALAR = Decimal(10) ** 18` in `listen_for_events.py` and
`WEI_SCALAR` in `services.py`). -/
def WEI_SCALAR : ℚ := 10 ^ 18

/-- Scale between GMX 30-decimal USD values and the 18-decimal target
(`GMX_SCALAR = Decimal(10) ** (30 - 18)` in `services.py`). -/
def GMX_SCALAR : ℚ := 10 ^ 12

/-- Scale between USDC 6-decimal amounts and the 18-decimal target
(`USDC_SCALAR = Decimal(10) ** (18 - 6)` in `services.py`). -/
def USDC_SCALAR : ℚ := 10 ^ 12

/-- Python `int()` applied to a nonnegative-or-negative exact decimal:
truncation toward zero. -/
def pyInt (q : ℚ) : ℤ := if 0 ≤ q then ⌊q⌋ else ⌈q⌉

theorem pyInt_of_nonneg {q : ℚ} (h : 0 ≤ q) : pyInt q = ⌊q⌋ := by
  simp [pyInt, h]

/-! ## NAV calculator (`NAVCalculatorService.run`, `services.py`)

The run is embedded as a function of its chain reads: the list of GMX
position fetch outcomes (`none` = the `getPosition` call raised and the
entry is skipped), the idle USDC reserves, the SHIELD total supply and
the wall-clock timestamp, plus the outcome of the oracle submission
(`none` = `build_transaction`/`_send_transaction` raised). -/

/-- Step 2 of `run`: accumulate `Decimal(collateral) / GMX_SCALAR` over
the positions whose fetch succeeded, in order, starting from 0. -/
def total_gmx_value (positions : List (Option ℕ)) : ℚ :=
  positions.foldl
    (fun acc p => match p with
      | some c => acc + (c : ℚ) / GMX_SCALAR
      | none => acc)
    0

/-- Step 3 of `run`: `Decimal(reserves_usdc) * USDC_SCALAR`. -/
def idle_reserves_usd (reserves_usdc : ℕ) : ℚ :=
  (reserves_usdc : ℚ) * USDC_SCALAR

/-- Step 5 of `run`: `total_managed_value = total_gmx_value + idle_reserves_usd`. -/
def total_managed_value (positions : List (Option ℕ)) (reserves_usdc : ℕ) : ℚ :=
  total_gmx_value positions + idle_reserves_usd reserves_usdc

/-- Step 5 of `run`: `int(WEI_SCALAR)` when the supply is zero, else
`int((total_managed_value * WEI_SCALAR) / Decimal(shield_supply_wei))`. -/
def nav_per_token_wei (positions : List (Option ℕ)) (reserves_usdc : ℕ)
    (shield_supply_wei : ℕ) : ℤ :=
  if shield_supply_wei = 0 then pyInt WEI_SCALAR
  else pyInt (total_managed_value positions reserves_usdc * WEI_SCALAR / (shield_supply_wei : ℚ))

/-- The ordered tuple built as `nav_data` in `run` and passed to
`solidity_keccak` / `submitNAV`. -/
structure NavData where
  navPerToken : ℤ
  totalManagedValue : ℤ
  shieldSupply : ℕ
  timestamp : ℕ
  deriving DecidableEq, Repr

/-- The `nav_data` dict of `run`: note that `totalManagedValue` is
`int(total_managed_value * WEI_SCALAR)`. -/
def nav_data (positions : List (Option ℕ)) (reserves_usdc : ℕ)
    (shield_supply_wei : ℕ) (timestamp : ℕ) : NavData :=
  { navPerToken := nav_per_token_wei positions reserves_usdc shield_supply_wei
    totalManagedValue := pyInt (total_managed_value positions reserves_usdc * WEI_SCALAR)
    shieldSupply := shield_supply_wei
    timestamp := timestamp }

/-- One row of the `NAVUpdateLog` table (`models.py`): the snapshot
appended at the end of every run. -/
structure NAVUpdateLogRec where
  total_position_size : ℚ
  onchain_tx_hash : Option String
  deriving DecidableEq, Repr

/-- Result of one `NAVCalculatorService.run`: the signed tuple and the
`NAVUpdateLog` table after the run. -/
structure NavRunResult where
  data : NavData
  nav_update_log : List NAVUpdateLogRec
  deriving DecidableEq, Repr

/-- Steps 5-6 of `run`: build `nav_data`, sign it, try to submit it
(`submit_outcome` is the transaction hash, or `none` when the
submission raised), then unconditionally create a `NAVUpdateLog` row
holding `total_managed_value` and the hash (null on failure). -/
def NAVCalculatorService_run (nav_update_log : List NAVUpdateLogRec)
    (positions : List (Option ℕ)) (reserves_usdc : ℕ) (shield_supply_wei : ℕ)
    (timestamp : ℕ) (submit_outcome : Option String) : NavRunResult :=
  let data := nav_data positions reserves_usdc shield_supply_wei timestamp
  let tx_hash : Option String :=
    match submit_outcome with
    | some h => some h
    | none => none
  { data := data
    nav_update_log := nav_update_log ++
      [{ total_position_size := total_managed_value positions reserves_usdc
         onchain_tx_hash := tx_hash }] }

theorem total_gmx_value_nonneg (positions : List (Option ℕ)) :
    0 ≤ total_gmx_value positions := by
  have h : ∀ (l : List (Option ℕ)) (acc : ℚ), 0 ≤ acc →
      0 ≤ l.foldl
        (fun acc p => match p with
          | some c => acc + (c : ℚ) / GMX_SCALAR
          | none => acc) acc := by
    intro l
    induction l with
    | nil => intro acc hacc; simpa using hacc
    | cons p ps ih =>
      intro acc hacc
      cases p with
      | none => exact ih acc hacc
      | some c =>
        refine ih _ ?_
        have hc : (0 : ℚ) ≤ (c : ℚ) / GMX_SCALAR := by
          apply div_nonneg
          · exact_mod_cast Nat.zero_le c
          · norm_num [GMX_SCALAR]
        linarith
  exact h positions 0 le_rfl

theorem total_managed_value_nonneg (positions : List (Option ℕ)) (reserves_usdc : ℕ) :
    0 ≤ total_managed_value positions reserves_usdc := by
  have h1 := total_gmx_value_nonneg positions
  have h2 : (0 : ℚ) ≤ idle_reserves_usd reserves_usdc := by
    apply mul_nonneg
    · exact_mod_cast Nat.zero_le reserves_usdc
    · norm_num [USDC_SCALAR]
  unfold total_managed_value
  linarith

/-- C3: for every NAV calculator run, with V the computed
`total_managed_value` and S the fetched `shieldSupply` (18-decimal
fixed-point), the computed `navPerToken` equals
`floor(V * 10^18 / S)` when `S > 0` and equals `10^18` when `S = 0`. -/
theorem nav_per_token_formula (positions : List (Option ℕ)) (reserves_usdc : ℕ)
    (shield_supply_wei : ℕ) :
    nav_per_token_wei positions reserves_usdc shield_supply_wei =
      if shield_supply_wei = 0 then 10 ^ 18
      else ⌊total_managed_value positions reserves_usdc * 10 ^ 18 / (shield_supply_wei : ℚ)⌋ := by
  unfold nav_per_token_wei
  by_cases hS : shield_supply_wei = 0
  · simp only [hS, if_true]
    rw [pyInt_of_nonneg (by norm_num [WEI_SCALAR])]
    norm_num [WEI_SCALAR]
  · simp only [hS, if_false]
    have hV := total_managed_value_nonneg positions reserves_usdc
    have hq : (0 : ℚ) ≤ total_managed_value positions reserves_usdc * WEI_SCALAR /
        (shield_supply_wei : ℚ) := by
      apply div_nonneg
      · apply mul_nonneg hV; norm_num [WEI_SCALAR]
      · exact_mod_cast Nat.zero_le shield_supply_wei
    rw [pyInt_of_nonneg hq, WEI_SCALAR]

/-- C4, failing input: with no GMX positions, idle reserves of 1 USDC
(raw `1000000`) and a supply of `10^18` wei, the computed 18-decimal
`total_managed_value` is `10^18`, but the `totalManagedValue` placed in
the signed/submitted tuple is `int(total_managed_value * WEI_SCALAR) =
10^36` — scaled by `10^18` a second time — so it differs from the
quantity used as V in the NAV division and recorded in the snapshot. -/
theorem nav_tuple_totalManagedValue_double_scaled :
    (nav_data [] 1000000 (10 ^ 18) 0).totalManagedValue = 10 ^ 36 ∧
    total_managed_value [] 1000000 = 10 ^ 18 ∧
    ((nav_data [] 1000000 (10 ^ 18) 0).totalManagedValue : ℚ) ≠
      total_managed_value [] 1000000 ∧
    (NAVCalculatorService_run [] [] 1000000 (10 ^ 18) 0 none).nav_update_log =
      [{ total_position_size := 10 ^ 18, onchain_tx_hash := none }] := by
  have hV : total_managed_value [] 1000000 = 10 ^ 18 := by
    norm_num [total_managed_value, total_gmx_value, idle_reserves_usd, USDC_SCALAR,
      List.foldl]
  have hT : (nav_data [] 1000000 (10 ^ 18) 0).totalManagedValue = 10 ^ 36 := by
    show pyInt (total_managed_value [] 1000000 * WEI_SCALAR) = 10 ^ 36
    rw [hV]
    rw [pyInt_of_nonneg (by norm_num [WEI_SCALAR])]
    norm_num [WEI_SCALAR]
  refine ⟨hT, hV, ?_, ?_⟩
  · rw [hT, hV]; norm_num
  · simp [NAVCalculatorService_run, hV]

/-- C8: every run that reaches the submission step appends exactly one
`NAVUpdateLog` snapshot, recording `total_managed_value` and the
submission transaction hash (null exactly when the submission raised);
a submission failure neither prevents the snapshot nor aborts the run. -/
theorem nav_run_snapshot_policy (nav_update_log : List NAVUpdateLogRec)
    (positions : List (Option ℕ)) (reserves_usdc : ℕ) (shield_supply_wei : ℕ)
    (timestamp : ℕ) (submit_outcome : Option String) :
    (NAVCalculatorService_run nav_update_log positions reserves_usdc shield_supply_wei
        timestamp submit_outcome).nav_update_log.length = nav_update_log.length + 1 ∧
    (NAVCalculatorService_run nav_update_log positions reserves_usdc shield_supply_wei
        timestamp submit_outcome).nav_update_log.getLast? =
      some { total_position_size := total_managed_value positions reserves_usdc
             onchain_tx_hash := submit_outcome } := by
  constructor
  · simp [NAVCalculatorService_run]
  · cases submit_outcome with
    | none => simp [NAVCalculatorService_run]
    | some h => simp [NAVCalculatorService_run]

/-! ## Transaction submitter (`OnChainService._send_transaction` and
`AsyncOnChainService._send_transaction`, `services.py`)

Both variants run the same sequence: fetch nonce, estimate gas, sign,
broadcast (`send_raw_transaction`), await the receipt, then require
`receipt.status == 1`.  The embedding takes the RPC outcomes as an
environment (`none` = that call raised) and additionally counts how
many times `send_raw_transaction` is invoked. -/

/-- Outcomes of the RPC calls made inside `_send_transaction`. -/
structure TxEnv where
  gasEstimate : Option ℕ
  broadcastHash : Option String
  receiptStatus : Option ℕ
  deriving DecidableEq, Repr

/-- Result of `_send_transaction`: the returned hash or the raised
error, together with the number of `send_raw_transaction` calls made. -/
structure SendOutcome where
  result : Except String String
  sendCalls : ℕ
  deriving Repr

/-- `_send_transaction`: estimate gas, sign, broadcast once, wait for
the receipt, raise unless `receipt.status == 1`, else return the hash. -/
def send_transaction (env : TxEnv) : SendOutcome :=
  match env.gasEstimate with
  | none => { result := Except.error "estimate_gas raised", sendCalls := 0 }
  | some _ =>
    match env.broadcastHash with
    | none => { result := Except.error "send_raw_transaction raised", sendCalls := 1 }
    | some tx_hash =>
      match env.receiptStatus with
      | none => { result := Except.error "wait_for_transaction_receipt raised", sendCalls := 1 }
      | some s =>
        if s = 1 then { result := Except.ok tx_hash, sendCalls := 1 }
        else { result := Except.error "Transaction failed", sendCalls := 1 }

/-- C7: `_send_transaction` returns a transaction hash exactly when gas
estimation and broadcast went through and the awaited receipt has
status 1; every other outcome surfaces an error, and the call
broadcasts at most once (no internal retry of a failed transaction). -/
theorem send_transaction_ok_iff_receipt_success (env : TxEnv) (h : String) :
    ((send_transaction env).result = Except.ok h ↔
      env.gasEstimate.isSome = true ∧ env.broadcastHash = some h ∧
        env.receiptStatus = some 1) ∧
    (send_transaction env).sendCalls ≤ 1 := by
  obtain ⟨g, b, r⟩ := env
  cases g with
  | none => simp [send_transaction]
  | some gas =>
    cases b with
    | none => simp [send_transaction]
    | some tx =>
      rcases r with _ | s
      · simp [send_transaction]
      · rcases eq_or_ne s 1 with hs | hs <;> simp_all [send_transaction]

/-! ## Admin weight-update endpoint (`TriggerUpdateWeightsView.post`,
`views.py`)

The serializer accepts `basketIndex ≥ 0` and `0 ≤ newWeightBps ≤ 10000`.
The try block then opens with `OnChainService()` at `views.py:88`,
called with no arguments although `OnChainService.__init__`
(`services.py:30`) requires a positional `w3`: the constructor raises
TypeError on every request, the outer except at `views.py:122` turns it
into a 500 response, and the weight reads, the 10000-bps validation and
the submission below it never run.  The dead logic is still embedded
(`update_weights_after_constructor`) to exhibit what the handler would
do past the constructor: `get_total_basket_weights` swallows RPC errors
and returns 0, `get_basket_allocation` re-raises into a 500, and
`updateBasketWeight` is submitted only when
`(currentTotal - oldWeight) + newWeight == 10000`. -/

/-- `OnChainService()` invoked with no arguments, as written at
`views.py:88` and `tasks.py:27`: `OnChainService.__init__`
(`services.py:30`) requires the positional parameter `w3`, so the call
raises TypeError before doing any work. -/
def OnChainService_no_args : Except String Unit :=
  Except.error "TypeError: __init__ missing 1 required positional argument: w3"

/-- RPC environment of the weight-update endpoint: the raw
`getTotalTargetWeights` call, the `getBasketAllocation(i)[3]` read and
the outcome of the `updateBasketWeight` transaction. -/
structure WeightsEnv where
  totalTargetWeights : Option ℕ
  allocationOldWeight : ℕ → Option ℕ
  updateTxOutcome : Option String

/-- `OnChainService.get_total_basket_weights`: returns the on-chain
total, or 0 when the call raised (the exception is swallowed). -/
def get_total_basket_weights (env : WeightsEnv) : ℕ :=
  env.totalTargetWeights.getD 0

/-- HTTP status classes the view can answer with. -/
inductive HttpResponse
  | ok (tx_hash : String)
  | badRequest
  | serverError
  deriving DecidableEq, Repr

/-- The read/validate/submit logic of the try block after the
`OnChainService()` call (`views.py:91-120`), paired with whether the
`updateBasketWeight` transaction was submitted.  In the source as
written this code is unreachable: the constructor raises first. -/
def update_weights_after_constructor (env : WeightsEnv)
    (basketIndex newWeightBps : ℕ) : HttpResponse × Bool :=
  let current_total := get_total_basket_weights env
  match env.allocationOldWeight basketIndex with
  | none => (HttpResponse.serverError, false)
  | some old_weight =>
    let new_total : ℤ := ((current_total : ℤ) - (old_weight : ℤ)) + (newWeightBps : ℤ)
    if new_total ≠ 10000 then (HttpResponse.badRequest, false)
    else
      match env.updateTxOutcome with
      | none => (HttpResponse.serverError, true)
      | some tx_hash => (HttpResponse.ok tx_hash, true)

/-- `TriggerUpdateWeightsView.post`: serializer validation, then the
try block, whose first statement `OnChainService()` raises TypeError
(no `w3` passed), so every serializer-valid request falls through to
the except handler and answers 500 with nothing submitted. -/
def trigger_update_weights_post (env : WeightsEnv) (basketIndex newWeightBps : ℕ) :
    HttpResponse × Bool :=
  if 10000 < newWeightBps then (HttpResponse.badRequest, false)
  else
    match OnChainService_no_args with
    | Except.error _ => (HttpResponse.serverError, false)
    | Except.ok _ => update_weights_after_constructor env basketIndex newWeightBps

/-- Concrete environment for the C9 demonstration: on-chain total
10000, basket 0 at 4000 bps, transactions always succeed. -/
def demoWeightsEnv : WeightsEnv :=
  { totalTargetWeights := some 10000
    allocationOldWeight := fun i => if i = 0 then some 4000 else none
    updateTxOutcome := some "0xtx" }

/-- C9, failing input: with on-chain total 10000 and basket 0 at
4000 bps, the serializer-valid requests `new = 4000` (new total exactly
10000, so the claim says accepted and submitted) and `new = 4500` (new
total 10500, so the claim says rejected with 400) both answer 500 with
no submission, because `OnChainService()` raises TypeError at
`views.py:88` before any read or validation.  The accept/reject logic
exists only in the dead code after the constructor, where 4000 would be
submitted and 4500 rejected. -/
theorem weight_update_always_500 :
    trigger_update_weights_post demoWeightsEnv 0 4000 =
      (HttpResponse.serverError, false) ∧
    trigger_update_weights_post demoWeightsEnv 0 4500 =
      (HttpResponse.serverError, false) ∧
    update_weights_after_constructor demoWeightsEnv 0 4000 =
      (HttpResponse.ok "0xtx", true) ∧
    update_weights_after_constructor demoWeightsEnv 0 4500 =
      (HttpResponse.badRequest, false) := by
  refine ⟨by decide, by decide, by decide, by decide⟩

/-! ## Event listener (`management/commands/listen_for_events.py`)

Django tables become lists of records (in insertion order); the decoded
`EventData` payloads become the `LogEvent` inductive; the chain reads
made by the handlers (`pendingDeposits`/`pendingWithdrawals` lookups,
`executeMintIntent`/`executeRedeemIntent` submissions) are an explicit
`ChainEnv`.  `update_or_create` keyed on the primary key becomes
`upsert`; `create` on a table whose primary key is given explicitly
becomes `acreate`, failing (IntegrityError) when the key is present.
The handlers divide raw `uint256` amounts by `DECIMAL_SCALAR = 10^18`
before storing them. -/

/-- Scalar used by the listener handlers
(`DECIMAL_SCALAR = Decimal(10) ** 18`). -/
def DECIMAL_SCALAR : ℚ := 10 ^ 18

/-- The `IntentStatus` text choices of `models.py`. -/
inductive IntentStatus
  | PENDING
  | PROCESSED
  | FAILED
  | EXPIRED
  deriving DecidableEq, Repr

/-- A row of the `MintIntent` table (primary key `intent_id`). -/
structure MintIntent where
  intent_id : String
  user : String
  deposit_asset : String
  deposit_amount : ℚ
  locked_nav : ℚ
  expected_shield : ℚ
  execution_fee : ℚ
  expires_at : ℕ
  status : IntentStatus
  deriving DecidableEq, Repr

/-- A row of the `RedeemIntent` table (primary key `intent_id`). -/
structure RedeemIntent where
  intent_id : String
  user : String
  output_asset : String
  shield_amount : ℚ
  locked_nav : ℚ
  expected_stablecoin : ℚ
  execution_fee : ℚ
  expires_at : ℕ
  status : IntentStatus
  deriving DecidableEq, Repr

/-- A row of the `DepositProcessedEvent` audit table (primary key
`transaction_hash`). -/
structure DepositProcessedEvent where
  transaction_hash : String
  deposit_id : ℕ
  user : String
  amount : ℚ
  success : Bool
  deriving DecidableEq, Repr

/-- A row of the `WithdrawalProcessedEvent` audit table (primary key
`transaction_hash`). -/
structure WithdrawalProcessedEvent where
  transaction_hash : String
  withdrawal_id : ℕ
  user : String
  amount : ℚ
  success : Bool
  deriving DecidableEq, Repr

/-- A row of the `BasketAllocationUpdate` audit table (primary key
`transaction_hash`). -/
structure BasketAllocationUpdate where
  transaction_hash : String
  basket_index : ℕ
  old_weight_bps : ℕ
  new_weight_bps : ℕ
  deriving DecidableEq, Repr

/-- A row of the `RebalanceExecutedEvent` audit table (primary key
`transaction_hash`). -/
structure RebalanceExecutedEvent where
  transaction_hash : String
  from_token : String
  to_token : String
  amount : ℚ
  timestamp : ℕ
  deriving DecidableEq, Repr

/-- The database state touched by the listener: the six event-driven
tables plus the `EventListenerState` singleton (`none` = no row yet). -/
structure DBState where
  mint_intents : List MintIntent
  redeem_intents : List RedeemIntent
  deposit_processed_events : List DepositProcessedEvent
  withdrawal_processed_events : List WithdrawalProcessedEvent
  basket_allocation_updates : List BasketAllocationUpdate
  rebalance_executed_events : List RebalanceExecutedEvent
  last_processed_block : Option ℕ
  deriving DecidableEq, Repr

/-- The empty database. -/
def DBState.empty : DBState :=
  { mint_intents := [], redeem_intents := [], deposit_processed_events := []
    withdrawal_processed_events := [], basket_allocation_updates := []
    rebalance_executed_events := [], last_processed_block := none }

/-- Django `update_or_create` keyed by `key`: if a row with the same
key exists, overwrite all its non-key fields (here: replace the row,
the key being equal); otherwise insert the new row at the end. -/
def upsert {α : Type} (key : α → String) (l : List α) (r : α) : List α :=
  if l.any (fun x => decide (key x = key r)) then
    l.map (fun x => if key x = key r then r else x)
  else l ++ [r]

/-- Django `create` on a table whose primary key is passed explicitly:
a plain INSERT, raising IntegrityError when the key is present. -/
def acreate {α : Type} (key : α → String) (l : List α) (r : α) : Option (List α) :=
  if l.any (fun x => decide (key x = key r)) then none else some (l ++ [r])

/-- A decoded log, one constructor per registered event, with the raw
`uint256` arguments. -/
inductive LogEvent
  | mintIntentCreated (intentId user depositAsset : String)
      (depositAmount lockedNAV expectedShield executionFee expiresAt : ℕ)
  | redeemIntentCreated (intentId user outputAsset : String)
      (shieldAmount lockedNAV expectedStablecoin executionFee expiresAt : ℕ)
  | depositProcessed (txHash : String) (depositId : ℕ) (user : String)
      (amount : ℕ) (success : Bool)
  | withdrawalProcessed (txHash : String) (withdrawalId : ℕ) (user : String)
      (amount : ℕ) (success : Bool)
  | basketAllocationUpdated (txHash : String) (basketIndex oldWeightBps newWeightBps : ℕ)
  | rebalanceExecuted (txHash : String) (fromToken toToken : String)
      (amount : ℕ) (timestamp : ℕ)
  deriving DecidableEq, Repr

/-- Chain reads and transaction submissions performed inside the
handlers: the `pendingDeposits`/`pendingWithdrawals` cross-reference
lookups (`none` = no associated order or the call raised) and whether
`executeMintIntent`/`executeRedeemIntent` succeed for a given id. -/
structure ChainEnv where
  intentIdFromDeposit : ℕ → Option String
  intentIdFromWithdrawal : ℕ → Option String
  executeMintIntentOk : String → Bool
  executeRedeemIntentOk : String → Bool

/-- `Command.handle_mint_intent_created`: `aupdate_or_create` keyed on
`intent_id` with all other fields — including `status: PENDING` — in
`defaults`. -/
def handle_mint_intent_created (db : DBState) (intentId user depositAsset : String)
    (depositAmount lockedNAV expectedShield executionFee expiresAt : ℕ) : DBState :=
  { db with mint_intents :=
      (upsert (fun r => r.intent_id) db.mint_intents
        { intent_id := intentId, user := user, deposit_asset := depositAsset
          deposit_amount := (depositAmount : ℚ) / DECIMAL_SCALAR
          locked_nav := (lockedNAV : ℚ) / DECIMAL_SCALAR
          expected_shield := (expectedShield : ℚ) / DECIMAL_SCALAR
          execution_fee := (executionFee : ℚ) / DECIMAL_SCALAR
          expires_at := expiresAt, status := IntentStatus.PENDING }) }

/-- `Command.handle_redeem_intent_created`: `aupdate_or_create` keyed on
`intent_id` with `status: PENDING` among the `defaults`. -/
def handle_redeem_intent_created (db : DBState) (intentId user outputAsset : String)
    (shieldAmount lockedNAV expectedStablecoin executionFee expiresAt : ℕ) : DBState :=
  { db with redeem_intents :=
      (upsert (fun r => r.intent_id) db.redeem_intents
        { intent_id := intentId, user := user, output_asset := outputAsset
          shield_amount := (shieldAmount : ℚ) / DECIMAL_SCALAR
          locked_nav := (lockedNAV : ℚ) / DECIMAL_SCALAR
          expected_stablecoin := (expectedStablecoin : ℚ) / DECIMAL_SCALAR
          execution_fee := (executionFee : ℚ) / DECIMAL_SCALAR
          expires_at := expiresAt, status := IntentStatus.PENDING }) }

/-- `Command.handle_deposit_processed`: insert the audit row (an
IntegrityError propagates to `process_log`), stop on `success=false`,
resolve the intent id on-chain, find the first PENDING intent with that
id, execute it on-chain and set `PROCESSED`, or `FAILED` when the
execution raised.  `Except.error` marks an exception escaping the
handler. -/
def handle_deposit_processed (env : ChainEnv) (db : DBState) (txHash : String)
    (depositId : ℕ) (user : String) (amount : ℕ) (success : Bool) :
    Except Unit DBState :=
  match acreate (fun r => r.transaction_hash) db.deposit_processed_events
      ({ transaction_hash := txHash, deposit_id := depositId, user := user
         amount := (amount : ℚ) / DECIMAL_SCALAR, success := success }) with
  | none => Except.error ()
  | some evs =>
    if success = false then Except.ok { db with deposit_processed_events := evs }
    else
      match env.intentIdFromDeposit depositId with
      | none => Except.ok { db with deposit_processed_events := evs }
      | some iid =>
        match db.mint_intents.find?
            (fun x => decide (x.intent_id = iid ∧ x.status = IntentStatus.PENDING)) with
        | none => Except.ok { db with deposit_processed_events := evs }
        | some _ =>
          Except.ok { db with
            deposit_processed_events := evs
            mint_intents := db.mint_intents.map (fun x =>
              if x.intent_id = iid ∧ x.status = IntentStatus.PENDING then
                { x with status :=
                    if env.executeMintIntentOk iid then IntentStatus.PROCESSED
                    else IntentStatus.FAILED }
              else x) }

/-- `Command.handle_withdrawal_processed`: the redeem-side twin of
`handle_deposit_processed`. -/
def handle_withdrawal_processed (env : ChainEnv) (db : DBState) (txHash : String)
    (withdrawalId : ℕ) (user : String) (amount : ℕ) (success : Bool) :
    Except Unit DBState :=
  match acreate (fun r => r.transaction_hash) db.withdrawal_processed_events
      ({ transaction_hash := txHash, withdrawal_id := withdrawalId, user := user
         amount := (amount : ℚ) / DECIMAL_SCALAR, success := success }) with
  | none => Except.error ()
  | some evs =>
    if success = false then Except.ok { db with withdrawal_processed_events := evs }
    else
      match env.intentIdFromWithdrawal withdrawalId with
      | none => Except.ok { db with withdrawal_processed_events := evs }
      | some iid =>
        match db.redeem_intents.find?
            (fun x => decide (x.intent_id = iid ∧ x.status = IntentStatus.PENDING)) with
        | none => Except.ok { db with withdrawal_processed_events := evs }
        | some _ =>
          Except.ok { db with
            withdrawal_processed_events := evs
            redeem_intents := db.redeem_intents.map (fun x =>
              if x.intent_id = iid ∧ x.status = IntentStatus.PENDING then
                { x with status :=
                    if env.executeRedeemIntentOk iid then IntentStatus.PROCESSED
                    else IntentStatus.FAILED }
              else x) }

/-- `Command.handle_basket_allocation_updated`: `aupdate_or_create`
keyed on `transaction_hash`, then enqueue the rebalance task (the task
timeline is modelled separately). -/
def handle_basket_allocation_updated (db : DBState) (txHash : String)
    (basketIndex oldWeightBps newWeightBps : ℕ) : DBState :=
  { db with basket_allocation_updates :=
      (upsert (fun r => r.transaction_hash) db.basket_allocation_updates
        { transaction_hash := txHash, basket_index := basketIndex
          old_weight_bps := oldWeightBps, new_weight_bps := newWeightBps }) }

/-- `Command.handle_rebalance_executed`: `acreate` keyed on
`transaction_hash` (an IntegrityError propagates), then an immediate
NAV update is enqueued. -/
def handle_rebalance_executed (db : DBState) (txHash : String)
    (fromToken toToken : String) (amount : ℕ) (timestamp : ℕ) :
    Except Unit DBState :=
  match acreate (fun r => r.transaction_hash) db.rebalance_executed_events
      ({ transaction_hash := txHash, from_token := fromToken, to_token := toToken
         amount := (amount : ℚ) / DECIMAL_SCALAR, timestamp := timestamp }) with
  | none => Except.error ()
  | some evs => Except.ok { db with rebalance_executed_events := evs }

/-- `Command.process_log`: dispatch a decoded log to its handler; any
exception escaping the handler is caught and logged, leaving the
database as the handler left it at the raise (the failed INSERT is
atomic). -/
def process_log (env : ChainEnv) (db : DBState) (e : LogEvent) : DBState :=
  match e with
  | .mintIntentCreated iid u a d l s f exp =>
      handle_mint_intent_created db iid u a d l s f exp
  | .redeemIntentCreated iid u a d l s f exp =>
      handle_redeem_intent_created db iid u a d l s f exp
  | .depositProcessed tx dep u amt s =>
      match handle_deposit_processed env db tx dep u amt s with
      | Except.ok db2 => db2
      | Except.error _ => db
  | .withdrawalProcessed tx wd u amt s =>
      match handle_withdrawal_processed env db tx wd u amt s with
      | Except.ok db2 => db2
      | Except.error _ => db
  | .basketAllocationUpdated tx i o n =>
      handle_basket_allocation_updated db tx i o n
  | .rebalanceExecuted tx f t amt ts =>
      match handle_rebalance_executed db tx f t amt ts with
      | Except.ok db2 => db2
      | Except.error _ => db

/-- The log-dispatch loop of `Command.process_block`, over the decoded
logs of the block in order. -/
def process_logs (env : ChainEnv) (db : DBState) (logs : List LogEvent) : DBState :=
  logs.foldl (process_log env) db

/-- `Command.process_block` on a successfully fetched block: dispatch
all relevant logs, then persist the checkpoint
(`EventListenerState.aupdate_or_create(pk=1, last_processed_block=block_number)`). -/
def process_block (env : ChainEnv) (db : DBState) (logs : List LogEvent)
    (block_number : ℕ) : DBState :=
  { process_logs env db logs with last_processed_block := some block_number }

/-! ## Poller loop (`Command.main_loop`)

`process_block` wraps its whole body in `try/except`: a failed block is
logged and skipped, and nothing is persisted for it.  The surrounding
loop then runs the remaining blocks of the range and unconditionally
sets the in-memory `last_processed_block` to the tick's chain head.
`TickEnv` supplies, per block number, whether the fetch/processing of
that block raises and the decoded logs it contains. -/

/-- Per-block behaviour of the chain for a poll tick: whether
`process_block` for that block runs without raising, and the decoded
logs of the block. -/
structure TickEnv where
  blockOk : ℕ → Bool
  blockLogs : ℕ → List LogEvent

/-- `Command.process_block` including its internal `try/except`: on
failure the exception is caught, nothing is dispatched and no
checkpoint is persisted for that block. -/
def process_block_checked (env : ChainEnv) (tenv : TickEnv) (db : DBState)
    (block_number : ℕ) : DBState :=
  if tenv.blockOk block_number then
    process_block env db (tenv.blockLogs block_number) block_number
  else db

/-- In-memory state of `Command.main_loop`: the database plus the local
`last_processed_block` variable. -/
structure PollerState where
  db : DBState
  last_processed_block : ℕ
  deriving Repr

/-- One iteration of the polling `while` loop at chain head `latest`:
if new blocks exist, run `process_block` for each block of
`range(last_processed_block + 1, latest + 1)` and then set the
in-memory `last_processed_block = latest_block`. -/
def poll_tick (env : ChainEnv) (tenv : TickEnv) (s : PollerState) (latest : ℕ) :
    PollerState :=
  if s.last_processed_block < latest then
    { db := (List.range' (s.last_processed_block + 1) (latest - s.last_processed_block)).foldl
        (process_block_checked env tenv) s.db
      last_processed_block := latest }
  else s

/-- Startup of `main_loop`:
`EventListenerState.objects.aget_or_create(pk=1, defaults=(last_processed_block := chain head))` —
an existing checkpoint row is kept, otherwise the row is created at the
current chain head. -/
def initial_last_processed_block (existing : Option ℕ) (chain_head : ℕ) : ℕ :=
  existing.getD chain_head

/-- The block numbers the poller fetches across a sequence of observed
chain heads, together with the final in-memory checkpoint; mirrors the
`range` arithmetic of `poll_tick` without the per-block effects. -/
def poller_fetched_blocks (last : ℕ) : List ℕ → List ℕ × ℕ
  | [] => ([], last)
  | latest :: heads =>
    if last < latest then
      let rest := poller_fetched_blocks latest heads
      (List.range' (last + 1) (latest - last) ++ rest.1, rest.2)
    else poller_fetched_blocks last heads

/-! ## Rebalance cooldown (`handle_basket_allocation_updated` and
`protocol.tasks.trigger_rebalance_task`)

Each `BasketAllocationUpdated` event calls
`trigger_rebalance_task.apply_async()` with no countdown and no dedup
key.  The task body sleeps `REBALANCE_COOLDOWN_SECONDS` and then, inside
its try/except, runs `service = OnChainService()` (`tasks.py:27`) with
no arguments; since `OnChainService.__init__` (`services.py:30`)
requires a positional `w3`, this raises TypeError, the error is logged,
and `service.rebalance_positions()` is never reached.  The timeline
model assumes an idle worker picks every task up at its enqueue time. -/

/-- `apply_async()` from the allocation handler at time `t`: appends a
task instance starting at `t` to the queue. -/
def enqueue_rebalance_task (queue : List ℕ) (t : ℕ) : List ℕ :=
  queue ++ [t]

/-- `trigger_rebalance_task` body for an instance started at `start`:
`time.sleep(cooldown)`, then `OnChainService()` — which raises
TypeError — then, only had the constructor succeeded, one
`rebalance_positions()` call.  Returns the wake-up time together with
the times of the `rebalance_positions()` calls the body makes (none on
the error path the source always takes). -/
def run_rebalance_task (cooldown start : ℕ) : ℕ × List ℕ :=
  match OnChainService_no_args with
  | Except.error _ => (start + cooldown, [])
  | Except.ok _ => (start + cooldown, [start + cooldown])

/-- Wake-up times of the rebalance task instances produced by a
sequence of `BasketAllocationUpdated` events at the given times: every
event enqueues its own task. -/
def rebalance_task_wake_times (event_times : List ℕ) (cooldown : ℕ) : List ℕ :=
  (event_times.foldl enqueue_rebalance_task []).map
    (fun start => (run_rebalance_task cooldown start).1)

/-- Times of the `rebalance_positions()` calls produced by those same
task instances, in order. -/
def rebalance_call_times (event_times : List ℕ) (cooldown : ℕ) : List ℕ :=
  (event_times.foldl enqueue_rebalance_task []).foldl
    (fun acc start => acc ++ (run_rebalance_task cooldown start).2) []

/-! ## Primary-key bookkeeping

For the replay-idempotency analysis we track, per table, the list of
primary keys in row order.  `upsert` leaves the key list unchanged when
the key is present and appends it otherwise; `acreate` fails exactly
when the key is present. -/

theorem map_key_replace {α : Type} (key : α → String) (r : α) :
    ∀ l : List α, (l.map (fun x => if key x = key r then r else x)).map key = l.map key := by
  intro l
  induction l with
  | nil => rfl
  | cons a as ih =>
    by_cases h : key a = key r
    · simp [h, ih]
    · simp [h, ih]

theorem map_key_of_key_eq {α : Type} (key : α → String) (f : α → α)
    (hf : ∀ x, key (f x) = key x) :
    ∀ l : List α, (l.map f).map key = l.map key := by
  intro l
  induction l with
  | nil => rfl
  | cons a as ih => simp [hf, ih]

theorem any_key_iff {α : Type} (key : α → String) (l : List α) (r : α) :
    l.any (fun x => decide (key x = key r)) = true ↔ key r ∈ l.map key := by
  simp only [List.any_eq_true, decide_eq_true_eq, List.mem_map]

theorem upsert_map_key_of_mem {α : Type} (key : α → String) (l : List α) (r : α)
    (h : key r ∈ l.map key) : (upsert key l r).map key = l.map key := by
  unfold upsert
  rw [if_pos ((any_key_iff key l r).mpr h)]
  exact map_key_replace key r l

theorem mem_upsert_map_key_self {α : Type} (key : α → String) (l : List α) (r : α) :
    key r ∈ (upsert key l r).map key := by
  unfold upsert
  by_cases h : l.any (fun x => decide (key x = key r)) = true
  · rw [if_pos h, map_key_replace key r l]
    exact (any_key_iff key l r).mp h
  · rw [if_neg h]; simp

theorem mem_upsert_map_key_mono {α : Type} (key : α → String) (l : List α) (r : α)
    {k : String} (h : k ∈ l.map key) : k ∈ (upsert key l r).map key := by
  unfold upsert
  by_cases hc : l.any (fun x => decide (key x = key r)) = true
  · rw [if_pos hc, map_key_replace key r l]; exact h
  · rw [if_neg hc]; simp [h]

theorem acreate_eq_none_iff {α : Type} (key : α → String) (l : List α) (r : α) :
    acreate key l r = none ↔ key r ∈ l.map key := by
  unfold acreate
  by_cases h : l.any (fun x => decide (key x = key r)) = true
  · rw [if_pos h]
    simpa using (any_key_iff key l r).mp h
  · rw [if_neg h]
    constructor
    · intro hc; exact absurd hc (by simp)
    · intro hm; exact absurd ((any_key_iff key l r).mpr hm) h

theorem acreate_eq_some {α : Type} {key : α → String} {l : List α} {r : α}
    {l2 : List α} (h : acreate key l r = some l2) :
    l2 = l ++ [r] ∧ key r ∉ l.map key := by
  unfold acreate at h
  by_cases hc : l.any (fun x => decide (key x = key r)) = true
  · rw [if_pos hc] at h; exact absurd h (by simp)
  · rw [if_neg hc] at h
    refine ⟨by simpa using h.symm, fun hm => hc ((any_key_iff key l r).mpr hm)⟩

/-- The per-table primary-key lists of a `DBState`. -/
structure DBKeys where
  mint : List String
  redeem : List String
  dep : List String
  wd : List String
  alloc : List String
  reb : List String
  deriving DecidableEq, Repr

/-- Primary keys of every event-driven table, in row order. -/
def dbKeys (db : DBState) : DBKeys :=
  { mint := db.mint_intents.map (fun r => r.intent_id)
    redeem := db.redeem_intents.map (fun r => r.intent_id)
    dep := db.deposit_processed_events.map (fun r => r.transaction_hash)
    wd := db.withdrawal_processed_events.map (fun r => r.transaction_hash)
    alloc := db.basket_allocation_updates.map (fun r => r.transaction_hash)
    reb := db.rebalance_executed_events.map (fun r => r.transaction_hash) }

/-- The primary key written by a log's handler is already present in
its target table. -/
def logKeyPresent (e : LogEvent) (db : DBState) : Prop :=
  match e with
  | .mintIntentCreated iid _ _ _ _ _ _ _ => iid ∈ (dbKeys db).mint
  | .redeemIntentCreated iid _ _ _ _ _ _ _ => iid ∈ (dbKeys db).redeem
  | .depositProcessed tx _ _ _ _ => tx ∈ (dbKeys db).dep
  | .withdrawalProcessed tx _ _ _ _ => tx ∈ (dbKeys db).wd
  | .basketAllocationUpdated tx _ _ _ => tx ∈ (dbKeys db).alloc
  | .rebalanceExecuted tx _ _ _ _ => tx ∈ (dbKeys db).reb

/-- Componentwise containment of key lists. -/
def keysLe (a b : DBKeys) : Prop :=
  a.mint ⊆ b.mint ∧ a.redeem ⊆ b.redeem ∧ a.dep ⊆ b.dep ∧
    a.wd ⊆ b.wd ∧ a.alloc ⊆ b.alloc ∧ a.reb ⊆ b.reb

theorem keysLe_refl (a : DBKeys) : keysLe a a :=
  ⟨fun _ h => h, fun _ h => h, fun _ h => h, fun _ h => h, fun _ h => h, fun _ h => h⟩

theorem keysLe_trans {a b c : DBKeys} (h1 : keysLe a b) (h2 : keysLe b c) : keysLe a c :=
  ⟨fun _ h => h2.1 (h1.1 h),
   fun _ h => h2.2.1 (h1.2.1 h),
   fun _ h => h2.2.2.1 (h1.2.2.1 h),
   fun _ h => h2.2.2.2.1 (h1.2.2.2.1 h),
   fun _ h => h2.2.2.2.2.1 (h1.2.2.2.2.1 h),
   fun _ h => h2.2.2.2.2.2 (h1.2.2.2.2.2 h)⟩

theorem logKeyPresent_mono {e : LogEvent} {db db2 : DBState}
    (hle : keysLe (dbKeys db) (dbKeys db2)) (h : logKeyPresent e db) :
    logKeyPresent e db2 := by
  cases e with
  | mintIntentCreated iid u a d l s f exp => exact hle.1 h
  | redeemIntentCreated iid u a d l s f exp => exact hle.2.1 h
  | depositProcessed tx dep u amt s => exact hle.2.2.1 h
  | withdrawalProcessed tx wd u amt s => exact hle.2.2.2.1 h
  | basketAllocationUpdated tx i o n => exact hle.2.2.2.2.1 h
  | rebalanceExecuted tx f t amt ts => exact hle.2.2.2.2.2 h

theorem handle_deposit_processed_error {env : ChainEnv} {db : DBState} {tx : String}
    {dep : ℕ} {u : String} {amt : ℕ} {s : Bool}
    (h : handle_deposit_processed env db tx dep u amt s = Except.error ()) :
    tx ∈ (dbKeys db).dep := by
  unfold handle_deposit_processed at h
  split at h
  · next heq =>
    have hm := (acreate_eq_none_iff _ _ _).mp heq
    simpa [dbKeys] using hm
  · next evs heq =>
    exfalso
    split at h
    · simp at h
    · split at h
      · simp at h
      · split at h
        · simp at h
        · simp at h

theorem handle_deposit_processed_ok {env : ChainEnv} {db : DBState} {tx : String}
    {dep : ℕ} {u : String} {amt : ℕ} {s : Bool} {db2 : DBState}
    (h : handle_deposit_processed env db tx dep u amt s = Except.ok db2) :
    (dbKeys db2).dep = (dbKeys db).dep ++ [tx] ∧
    (dbKeys db2).mint = (dbKeys db).mint ∧
    db2.redeem_intents = db.redeem_intents ∧
    db2.withdrawal_processed_events = db.withdrawal_processed_events ∧
    db2.basket_allocation_updates = db.basket_allocation_updates ∧
    db2.rebalance_executed_events = db.rebalance_executed_events ∧
    tx ∉ (dbKeys db).dep := by
  unfold handle_deposit_processed at h
  split at h
  · simp at h
  · next evs heq =>
    obtain ⟨hevs, hnot⟩ := acreate_eq_some heq
    subst hevs
    have hnot2 : tx ∉ (dbKeys db).dep := by simpa [dbKeys] using hnot
    split at h
    · cases h
      exact ⟨by simp [dbKeys], by simp [dbKeys], rfl, rfl, rfl, rfl, hnot2⟩
    · split at h
      · cases h
        exact ⟨by simp [dbKeys], by simp [dbKeys], rfl, rfl, rfl, rfl, hnot2⟩
      · next iid heq2 =>
        split at h
        · cases h
          exact ⟨by simp [dbKeys], by simp [dbKeys], rfl, rfl, rfl, rfl, hnot2⟩
        · cases h
          refine ⟨by simp [dbKeys], ?_, rfl, rfl, rfl, rfl, hnot2⟩
          simp only [dbKeys]
          exact map_key_of_key_eq _ _ (fun x => by
            by_cases hx : x.intent_id = iid ∧ x.status = IntentStatus.PENDING <;>
              simp [hx]) _

theorem handle_withdrawal_processed_error {env : ChainEnv} {db : DBState} {tx : String}
    {wd : ℕ} {u : String} {amt : ℕ} {s : Bool}
    (h : handle_withdrawal_processed env db tx wd u amt s = Except.error ()) :
    tx ∈ (dbKeys db).wd := by
  unfold handle_withdrawal_processed at h
  split at h
  · next heq =>
    have hm := (acreate_eq_none_iff _ _ _).mp heq
    simpa [dbKeys] using hm
  · next evs heq =>
    exfalso
    split at h
    · simp at h
    · split at h
      · simp at h
      · split at h
        · simp at h
        · simp at h

theorem handle_withdrawal_processed_ok {env : ChainEnv} {db : DBState} {tx : String}
    {wd : ℕ} {u : String} {amt : ℕ} {s : Bool} {db2 : DBState}
    (h : handle_withdrawal_processed env db tx wd u amt s = Except.ok db2) :
    (dbKeys db2).wd = (dbKeys db).wd ++ [tx] ∧
    (dbKeys db2).redeem = (dbKeys db).redeem ∧
    db2.mint_intents = db.mint_intents ∧
    db2.deposit_processed_events = db.deposit_processed_events ∧
    db2.basket_allocation_updates = db.basket_allocation_updates ∧
    db2.rebalance_executed_events = db.rebalance_executed_events ∧
    tx ∉ (dbKeys db).wd := by
  unfold handle_withdrawal_processed at h
  split at h
  · simp at h
  · next evs heq =>
    obtain ⟨hevs, hnot⟩ := acreate_eq_some heq
    subst hevs
    have hnot2 : tx ∉ (dbKeys db).wd := by simpa [dbKeys] using hnot
    split at h
    · cases h
      exact ⟨by simp [dbKeys], by simp [dbKeys], rfl, rfl, rfl, rfl, hnot2⟩
    · split at h
      · cases h
        exact ⟨by simp [dbKeys], by simp [dbKeys], rfl, rfl, rfl, rfl, hnot2⟩
      · next iid heq2 =>
        split at h
        · cases h
          exact ⟨by simp [dbKeys], by simp [dbKeys], rfl, rfl, rfl, rfl, hnot2⟩
        · cases h
          refine ⟨by simp [dbKeys], ?_, rfl, rfl, rfl, rfl, hnot2⟩
          simp only [dbKeys]
          exact map_key_of_key_eq _ _ (fun x => by
            by_cases hx : x.intent_id = iid ∧ x.status = IntentStatus.PENDING <;>
              simp [hx]) _

theorem handle_rebalance_executed_error {db : DBState} {tx f t : String}
    {amt ts : ℕ}
    (h : handle_rebalance_executed db tx f t amt ts = Except.error ()) :
    tx ∈ (dbKeys db).reb := by
  unfold handle_rebalance_executed at h
  split at h
  · next heq =>
    have hm := (acreate_eq_none_iff _ _ _).mp heq
    simpa [dbKeys] using hm
  · simp at h

theorem handle_rebalance_executed_ok {db : DBState} {tx f t : String}
    {amt ts : ℕ} {db2 : DBState}
    (h : handle_rebalance_executed db tx f t amt ts = Except.ok db2) :
    (dbKeys db2).reb = (dbKeys db).reb ++ [tx] ∧
    db2.mint_intents = db.mint_intents ∧
    db2.redeem_intents = db.redeem_intents ∧
    db2.deposit_processed_events = db.deposit_processed_events ∧
    db2.withdrawal_processed_events = db.withdrawal_processed_events ∧
    db2.basket_allocation_updates = db.basket_allocation_updates ∧
    tx ∉ (dbKeys db).reb := by
  unfold handle_rebalance_executed at h
  split at h
  · simp at h
  · next evs heq =>
    obtain ⟨hevs, hnot⟩ := acreate_eq_some heq
    subst hevs
    cases h
    exact ⟨by simp [dbKeys], rfl, rfl, rfl, rfl, rfl, by simpa [dbKeys] using hnot⟩

theorem handle_deposit_processed_error_of_mem {env : ChainEnv} {db : DBState}
    {tx : String} {dep : ℕ} {u : String} {amt : ℕ} {s : Bool}
    (h : tx ∈ (dbKeys db).dep) :
    handle_deposit_processed env db tx dep u amt s = Except.error () := by
  unfold handle_deposit_processed
  rw [(acreate_eq_none_iff _ _ _).mpr (by simpa [dbKeys] using h)]

theorem handle_withdrawal_processed_error_of_mem {env : ChainEnv} {db : DBState}
    {tx : String} {wd : ℕ} {u : String} {amt : ℕ} {s : Bool}
    (h : tx ∈ (dbKeys db).wd) :
    handle_withdrawal_processed env db tx wd u amt s = Except.error () := by
  unfold handle_withdrawal_processed
  rw [(acreate_eq_none_iff _ _ _).mpr (by simpa [dbKeys] using h)]

theorem handle_rebalance_executed_error_of_mem {db : DBState}
    {tx f t : String} {amt ts : ℕ}
    (h : tx ∈ (dbKeys db).reb) :
    handle_rebalance_executed db tx f t amt ts = Except.error () := by
  unfold handle_rebalance_executed
  rw [(acreate_eq_none_iff _ _ _).mpr (by simpa [dbKeys] using h)]

theorem process_log_keysLe (env : ChainEnv) (db : DBState) (e : LogEvent) :
    keysLe (dbKeys db) (dbKeys (process_log env db e)) := by
  cases e with
  | mintIntentCreated iid u a d l s f exp =>
    exact ⟨fun k hk => mem_upsert_map_key_mono _ _ _ hk, fun k hk => hk,
      fun k hk => hk, fun k hk => hk, fun k hk => hk, fun k hk => hk⟩
  | redeemIntentCreated iid u a d l s f exp =>
    exact ⟨fun k hk => hk, fun k hk => mem_upsert_map_key_mono _ _ _ hk,
      fun k hk => hk, fun k hk => hk, fun k hk => hk, fun k hk => hk⟩
  | depositProcessed tx dep u amt s =>
    show keysLe (dbKeys db) (dbKeys (match handle_deposit_processed env db tx dep u amt s with
      | Except.ok db2 => db2
      | Except.error _ => db))
    cases hres : handle_deposit_processed env db tx dep u amt s with
    | error err => exact keysLe_refl _
    | ok db2 =>
      obtain ⟨h1, h2, h3, h4, h5, h6, _⟩ := handle_deposit_processed_ok hres
      refine ⟨?_, ?_, ?_, ?_, ?_, ?_⟩
      · intro k hk; rw [h2]; exact hk
      · intro k hk; show k ∈ db2.redeem_intents.map _; rw [h3]; exact hk
      · intro k hk; rw [h1]; exact List.mem_append_left _ hk
      · intro k hk; show k ∈ db2.withdrawal_processed_events.map _; rw [h4]; exact hk
      · intro k hk; show k ∈ db2.basket_allocation_updates.map _; rw [h5]; exact hk
      · intro k hk; show k ∈ db2.rebalance_executed_events.map _; rw [h6]; exact hk
  | withdrawalProcessed tx wd u amt s =>
    show keysLe (dbKeys db) (dbKeys (match handle_withdrawal_processed env db tx wd u amt s with
      | Except.ok db2 => db2
      | Except.error _ => db))
    cases hres : handle_withdrawal_processed env db tx wd u amt s with
    | error err => exact keysLe_refl _
    | ok db2 =>
      obtain ⟨h1, h2, h3, h4, h5, h6, _⟩ := handle_withdrawal_processed_ok hres
      refine ⟨?_, ?_, ?_, ?_, ?_, ?_⟩
      · intro k hk; show k ∈ db2.mint_intents.map _; rw [h3]; exact hk
      · intro k hk; rw [h2]; exact hk
      · intro k hk; show k ∈ db2.deposit_processed_events.map _; rw [h4]; exact hk
      · intro k hk; rw [h1]; exact List.mem_append_left _ hk
      · intro k hk; show k ∈ db2.basket_allocation_updates.map _; rw [h5]; exact hk
      · intro k hk; show k ∈ db2.rebalance_executed_events.map _; rw [h6]; exact hk
  | basketAllocationUpdated tx i o n =>
    exact ⟨fun k hk => hk, fun k hk => hk, fun k hk => hk, fun k hk => hk,
      fun k hk => mem_upsert_map_key_mono _ _ _ hk, fun k hk => hk⟩
  | rebalanceExecuted tx f t amt ts =>
    show keysLe (dbKeys db) (dbKeys (match handle_rebalance_executed db tx f t amt ts with
      | Except.ok db2 => db2
      | Except.error _ => db))
    cases hres : handle_rebalance_executed db tx f t amt ts with
    | error err => exact keysLe_refl _
    | ok db2 =>
      obtain ⟨h1, h2, h3, h4, h5, h6, _⟩ := handle_rebalance_executed_ok hres
      refine ⟨?_, ?_, ?_, ?_, ?_, ?_⟩
      · intro k hk; show k ∈ db2.mint_intents.map _; rw [h2]; exact hk
      · intro k hk; show k ∈ db2.redeem_intents.map _; rw [h3]; exact hk
      · intro k hk; show k ∈ db2.deposit_processed_events.map _; rw [h4]; exact hk
      · intro k hk; show k ∈ db2.withdrawal_processed_events.map _; rw [h5]; exact hk
      · intro k hk; show k ∈ db2.basket_allocation_updates.map _; rw [h6]; exact hk
      · intro k hk; rw [h1]; exact List.mem_append_left _ hk

theorem process_log_key_present (env : ChainEnv) (db : DBState) (e : LogEvent) :
    logKeyPresent e (process_log env db e) := by
  cases e with
  | mintIntentCreated iid u a d l s f exp =>
    exact mem_upsert_map_key_self _ _ _
  | redeemIntentCreated iid u a d l s f exp =>
    exact mem_upsert_map_key_self _ _ _
  | depositProcessed tx dep u amt s =>
    show tx ∈ (dbKeys (match handle_deposit_processed env db tx dep u amt s with
      | Except.ok db2 => db2
      | Except.error _ => db)).dep
    cases hres : handle_deposit_processed env db tx dep u amt s with
    | error err =>
      cases err
      exact handle_deposit_processed_error hres
    | ok db2 =>
      obtain ⟨h1, _, _, _, _, _, _⟩ := handle_deposit_processed_ok hres
      rw [h1]; simp
  | withdrawalProcessed tx wd u amt s =>
    show tx ∈ (dbKeys (match handle_withdrawal_processed env db tx wd u amt s with
      | Except.ok db2 => db2
      | Except.error _ => db)).wd
    cases hres : handle_withdrawal_processed env db tx wd u amt s with
    | error err =>
      cases err
      exact handle_withdrawal_processed_error hres
    | ok db2 =>
      obtain ⟨h1, _, _, _, _, _, _⟩ := handle_withdrawal_processed_ok hres
      rw [h1]; simp
  | basketAllocationUpdated tx i o n =>
    exact mem_upsert_map_key_self _ _ _
  | rebalanceExecuted tx f t amt ts =>
    show tx ∈ (dbKeys (match handle_rebalance_executed db tx f t amt ts with
      | Except.ok db2 => db2
      | Except.error _ => db)).reb
    cases hres : handle_rebalance_executed db tx f t amt ts with
    | error err =>
      cases err
      exact handle_rebalance_executed_error hres
    | ok db2 =>
      obtain ⟨h1, _, _, _, _, _, _⟩ := handle_rebalance_executed_ok hres
      rw [h1]; simp

theorem process_log_frozen (env : ChainEnv) (db : DBState) (e : LogEvent)
    (h : logKeyPresent e db) : dbKeys (process_log env db e) = dbKeys db := by
  cases e with
  | mintIntentCreated iid u a d l s f exp =>
    show dbKeys { db with mint_intents := upsert _ db.mint_intents _ } = dbKeys db
    simp only [dbKeys]
    congr 1
    exact upsert_map_key_of_mem _ _ _ h
  | redeemIntentCreated iid u a d l s f exp =>
    show dbKeys { db with redeem_intents := upsert _ db.redeem_intents _ } = dbKeys db
    simp only [dbKeys]
    congr 1
    exact upsert_map_key_of_mem _ _ _ h
  | depositProcessed tx dep u amt s =>
    show dbKeys (match handle_deposit_processed env db tx dep u amt s with
      | Except.ok db2 => db2
      | Except.error _ => db) = dbKeys db
    rw [handle_deposit_processed_error_of_mem h]
  | withdrawalProcessed tx wd u amt s =>
    show dbKeys (match handle_withdrawal_processed env db tx wd u amt s with
      | Except.ok db2 => db2
      | Except.error _ => db) = dbKeys db
    rw [handle_withdrawal_processed_error_of_mem h]
  | basketAllocationUpdated tx i o n =>
    show dbKeys { db with basket_allocation_updates := upsert _ db.basket_allocation_updates _ } = dbKeys db
    simp only [dbKeys]
    congr 1
    exact upsert_map_key_of_mem _ _ _ h
  | rebalanceExecuted tx f t amt ts =>
    show dbKeys (match handle_rebalance_executed db tx f t amt ts with
      | Except.ok db2 => db2
      | Except.error _ => db) = dbKeys db
    rw [handle_rebalance_executed_error_of_mem h]

theorem process_logs_keysLe (env : ChainEnv) (logs : List LogEvent) :
    ∀ db : DBState, keysLe (dbKeys db) (dbKeys (process_logs env db logs)) := by
  induction logs with
  | nil => intro db; exact keysLe_refl _
  | cons e es ih =>
    intro db
    exact keysLe_trans (process_log_keysLe env db e) (ih (process_log env db e))

theorem process_logs_key_present (env : ChainEnv) (logs : List LogEvent) :
    ∀ db : DBState, ∀ e ∈ logs, logKeyPresent e (process_logs env db logs) := by
  induction logs with
  | nil => intro db e he; cases he
  | cons e2 es ih =>
    intro db e he
    rcases List.mem_cons.mp he with rfl | hmem
    · exact logKeyPresent_mono (process_logs_keysLe env es (process_log env db e))
        (process_log_key_present env db e)
    · exact ih (process_log env db e2) e hmem

theorem process_logs_frozen (env : ChainEnv) (logs : List LogEvent) :
    ∀ db : DBState, (∀ e ∈ logs, logKeyPresent e db) →
      dbKeys (process_logs env db logs) = dbKeys db := by
  induction logs with
  | nil => intro db _; rfl
  | cons e es ih =>
    intro db hall
    have h1 : dbKeys (process_log env db e) = dbKeys db :=
      process_log_frozen env db e (hall e (by simp))
    have h2 : ∀ e2 ∈ es, logKeyPresent e2 (process_log env db e) := by
      intro e2 he2
      exact logKeyPresent_mono (process_log_keysLe env db e)
        (hall e2 (List.mem_cons_of_mem _ he2))
    calc dbKeys (process_logs env (process_log env db e) es)
        = dbKeys (process_log env db e) := ih _ h2
      _ = dbKeys db := h1

/-! ## Claim theorems for the listener -/

/-- C6 (amended): replaying the identical block (same decoded logs)
through the dispatcher adds no rows to any table — the per-table
primary-key lists after processing the block twice equal those after
processing it once.  (Full record equality can fail: a replayed
creation event resets the intent's `status`, see the counterexample.) -/
theorem replayed_block_adds_no_rows (env : ChainEnv) (db : DBState)
    (logs : List LogEvent) (block_number : ℕ) :
    dbKeys (process_block env (process_block env db logs block_number) logs block_number) =
      dbKeys (process_block env db logs block_number) := by
  have hpresent : ∀ e ∈ logs, logKeyPresent e (process_block env db logs block_number) := by
    intro e he
    exact process_logs_key_present env logs db e he
  have hfrozen := process_logs_frozen env logs (process_block env db logs block_number) hpresent
  exact hfrozen

/-- Environment for the replay counterexample: deposit 7 resolves to
intent `0xaa`, and intent execution succeeds on-chain. -/
def replayChainEnv : ChainEnv :=
  { intentIdFromDeposit := fun d => if d = 7 then some "0xaa" else none
    intentIdFromWithdrawal := fun _ => none
    executeMintIntentOk := fun _ => true
    executeRedeemIntentOk := fun _ => false }

/-- A block whose logs create mint intent `0xaa` and then complete it
via a successful `DepositProcessed`. -/
def mintThenDepositLogs : List LogEvent :=
  [LogEvent.mintIntentCreated "0xaa" "0xu" "0xd" 5 5 5 0 9,
   LogEvent.depositProcessed "0xt1" 7 "0xu" 5 true]

/-- C6, counterexample to the claim as stated: processing the identical
block twice does not leave the set of Intent records equal to the set
after processing it once — after one pass intent `0xaa` is PROCESSED,
after the replay its record is back to PENDING (the replayed creation
event overwrote the status), so the `MintIntent` record lists differ. -/
theorem replayed_block_mutates_intent_records :
    (process_block replayChainEnv
        (process_block replayChainEnv DBState.empty mintThenDepositLogs 1)
        mintThenDepositLogs 1).mint_intents ≠
      (process_block replayChainEnv DBState.empty mintThenDepositLogs 1).mint_intents ∧
    (process_block replayChainEnv DBState.empty mintThenDepositLogs 1).mint_intents.map
        (fun r => r.status) = [IntentStatus.PROCESSED] ∧
    (process_block replayChainEnv
        (process_block replayChainEnv DBState.empty mintThenDepositLogs 1)
        mintThenDepositLogs 1).mint_intents.map (fun r => r.status) =
      [IntentStatus.PENDING] := by
  have h1 : (process_block replayChainEnv DBState.empty mintThenDepositLogs 1).mint_intents.map
      (fun r => r.status) = [IntentStatus.PROCESSED] := by decide
  have h2 : (process_block replayChainEnv
      (process_block replayChainEnv DBState.empty mintThenDepositLogs 1)
      mintThenDepositLogs 1).mint_intents.map (fun r => r.status) =
      [IntentStatus.PENDING] := by decide
  refine ⟨?_, h1, h2⟩
  intro heq
  rw [heq, h1] at h2
  simp at h2

/-- A database holding mint intent `0xaa` already in the terminal
PROCESSED state. -/
def dbWithProcessedIntent : DBState :=
  { DBState.empty with mint_intents :=
      [{ intent_id := "0xaa", user := "0xu", deposit_asset := "0xd"
         deposit_amount := 5 / DECIMAL_SCALAR, locked_nav := 5 / DECIMAL_SCALAR
         expected_shield := 5 / DECIMAL_SCALAR, execution_fee := 0
         expires_at := 9, status := IntentStatus.PROCESSED }] }

/-- C1, failing input: replaying a `MintIntentCreated` event for an
intent that is already PROCESSED does not create a duplicate record,
but it does overwrite the terminal status back to PENDING, because
`aupdate_or_create` carries `status: PENDING` in its `defaults`. -/
theorem replayed_creation_resets_terminal_status :
    dbWithProcessedIntent.mint_intents.map (fun r => r.status) =
      [IntentStatus.PROCESSED] ∧
    (handle_mint_intent_created dbWithProcessedIntent "0xaa" "0xu" "0xd" 5 5 5 0 9).mint_intents.length = 1 ∧
    (handle_mint_intent_created dbWithProcessedIntent "0xaa" "0xu" "0xd" 5 5 5 0 9).mint_intents.map
        (fun r => r.status) = [IntentStatus.PENDING] := by
  refine ⟨by decide, by decide, by decide⟩

/-- A chain environment in which no handler makes progress beyond the
audit insert (no cross-references resolve). -/
def quietChainEnv : ChainEnv :=
  { intentIdFromDeposit := fun _ => none
    intentIdFromWithdrawal := fun _ => none
    executeMintIntentOk := fun _ => false
    executeRedeemIntentOk := fun _ => false }

/-- Tick environment for the C2 demonstration: fetching block 1 raises,
block 2 succeeds; each block carries one creation event. -/
def failingBlockTickEnv : TickEnv :=
  { blockOk := fun n => decide (n ≠ 1)
    blockLogs := fun n =>
      if n = 1 then [LogEvent.mintIntentCreated "0xb1" "0xu" "0xd" 5 5 5 0 9]
      else if n = 2 then [LogEvent.mintIntentCreated "0xb2" "0xu" "0xd" 5 5 5 0 9]
      else [] }

/-- The poller state after one tick at chain head 2 starting from
checkpoint 0, where block 1 fails and block 2 succeeds. -/
def c2TickResult : PollerState :=
  poll_tick quietChainEnv failingBlockTickEnv
    { db := DBState.empty, last_processed_block := 0 } 2

/-- C2, failing input: when block 1 of the tick range fails, the batch
is not aborted (block 2 is still processed and its intent stored), the
in-memory checkpoint advances to 2 and the persisted checkpoint is
written as 2, so block 1's logs are skipped; a repeat tick at the same
head does not revisit block 1. -/
theorem failed_block_is_skipped_not_retried :
    failingBlockTickEnv.blockOk 1 = false ∧
    c2TickResult.last_processed_block = 2 ∧
    c2TickResult.db.last_processed_block = some 2 ∧
    c2TickResult.db.mint_intents.map (fun r => r.intent_id) = ["0xb2"] ∧
    poll_tick quietChainEnv failingBlockTickEnv c2TickResult 2 = c2TickResult := by
  have hlast : c2TickResult.last_processed_block = 2 := by decide
  refine ⟨by decide, hlast, by decide, by decide, ?_⟩
  unfold poll_tick
  rw [hlast, if_neg (by omega)]

/-- C5, counterexample to the claim as stated: two
`BasketAllocationUpdated` events 10 seconds apart under a 300-second
cooldown do not produce exactly one rebalance-trigger call 300 seconds
after the second event — they produce none at all.  Both tasks wake (at
300 s and 310 s), and each fails with TypeError in `OnChainService()`
before reaching `rebalance_positions()`. -/
theorem rebalance_calls_not_coalesced :
    rebalance_task_wake_times [0, 10] 300 = [300, 310] ∧
    rebalance_call_times [0, 10] 300 = [] ∧
    (rebalance_call_times [0, 10] 300).length ≠ 1 := by
  refine ⟨by decide, by decide, by decide⟩

/-- C5 (amended): every `BasketAllocationUpdated` event enqueues its
own rebalance task — there is no coalescing, cancellation or dedup —
and each task wakes exactly one cooldown interval after its own event;
no task ever issues a `rebalance_positions` call, because the task body
constructs `OnChainService()` without the required `w3` argument and
the resulting TypeError is swallowed by its try/except. -/
theorem rebalance_tasks_wake_uncoalesced_and_fire_nothing
    (event_times : List ℕ) (cooldown : ℕ) :
    rebalance_task_wake_times event_times cooldown =
      event_times.map (fun t => t + cooldown) ∧
    rebalance_call_times event_times cooldown = [] := by
  have h : ∀ (ts : List ℕ) (q : List ℕ),
      ts.foldl enqueue_rebalance_task q = q ++ ts := by
    intro ts
    induction ts with
    | nil => intro q; simp [List.foldl]
    | cons t ts ih =>
      intro q
      show (ts.foldl enqueue_rebalance_task (enqueue_rebalance_task q t)) = _
      rw [ih (enqueue_rebalance_task q t)]
      simp [enqueue_rebalance_task]
  constructor
  · unfold rebalance_task_wake_times
    rw [h event_times []]
    simp [run_rebalance_task, OnChainService_no_args]
  · unfold rebalance_call_times
    rw [h event_times []]
    have h2 : ∀ (q acc : List ℕ),
        q.foldl (fun acc start => acc ++ (run_rebalance_task cooldown start).2) acc =
          acc := by
      intro q
      induction q with
      | nil => intro acc; rfl
      | cons a as ih =>
        intro acc
        simp only [List.foldl_cons]
        rw [show (run_rebalance_task cooldown a).2 = [] from rfl, List.append_nil]
        exact ih acc
    simpa using h2 event_times []

/-- C10: when no checkpoint row exists at startup, the checkpoint is
initialized to the chain head, and every block number the poller ever
fetches afterwards is strictly greater than that startup head — blocks
mined before the first startup are never fetched. -/
theorem first_startup_skips_prior_blocks (startup_head : ℕ) (heads : List ℕ) (b : ℕ)
    (hb : b ∈ (poller_fetched_blocks
        (initial_last_processed_block none startup_head) heads).1) :
    initial_last_processed_block none startup_head = startup_head ∧
    startup_head < b := by
  have key : ∀ (hs : List ℕ) (last : ℕ) (x : ℕ),
      x ∈ (poller_fetched_blocks last hs).1 → last < x := by
    intro hs
    induction hs with
    | nil => intro last x hx; cases hx
    | cons latest rest ih =>
      intro last x hx
      unfold poller_fetched_blocks at hx
      by_cases hlt : last < latest
      · rw [if_pos hlt] at hx
        rcases List.mem_append.mp hx with hx1 | hx2
        · have := List.mem_range'_1.mp hx1
          omega
        · have := ih latest x hx2
          omega
      · rw [if_neg hlt] at hx
        exact ih last x hx
  exact ⟨rfl, key heads startup_head b hb⟩

/-- Witness for `first_startup_skips_prior_blocks`: starting with no
checkpoint at head 5 and then observing head 7, the poller fetches
block 6, and indeed 5 < 6. -/
theorem first_startup_skips_prior_blocks_witness :
    (6 ∈ (poller_fetched_blocks (initial_last_processed_block none 5) [7]).1) ∧
    (initial_last_processed_block none 5 = 5 ∧ 5 < 6) :=
  ⟨by decide, first_startup_skips_prior_blocks 5 [7] 6 (by decide)⟩

end ValueGuard
